import Mathlib

/-!
# scopus2orcid: a shallow embedding of `main.go`

The program reads newline-delimited JSON exports of `Person` records, and for
every identifier of scheme `"scopus"` asks the ORCID public search API whether
the identifier is registered in an ORCID profile.

Everything the program does to the outside world is recorded, in order, in a
trace of `Event`s.  What the outside world answers (the command line, the file
system, the JSON decoder, the URL parser, the network) is given by a `World`.
Every function of the program takes the trace so far and returns an `Outcome`:
either it returned normally, with a value and the extended trace, or one of
the `log.Fatal*` calls ended the process, with the trace up to that point.
-/

set_option linter.dupNamespace false

namespace Scopus2Orcid

/-! ## Data model -/

/-- Byte slices (`[]byte`): file contents, scanned lines, response bodies. -/
abbrev Bytes := List UInt8

/-- The UTF-8 bytes of a string, as `fmt.Printf` writes them. -/
def utf8 (s : String) : Bytes := s.data.flatMap String.utf8EncodeChar

/-- The anonymous struct of `Person.Identifier`: a scheme and a value. -/
structure IdentifierEntry where
  Scheme : String
  Value : String
deriving DecidableEq, Repr

/-- Go struct `Person`. -/
structure Person where
  FamilyName : String
  GivenName : String
  ID : String
  Identifier : List IdentifierEntry
deriving DecidableEq, Repr

/-- Go struct `AccessToken`. -/
structure AccessToken where
  AccessToken : String
  TokenType : String
  Scope : String
deriving DecidableEq, Repr

/-- Go struct `ORCIDResponse`. -/
structure ORCIDResponse where
  NumFound : Int
deriving DecidableEq, Repr

/-! ## HTTP -/

/-- The map behind `http.Header` and `url.Values`, with one value per key (the
program only ever uses `Set`). -/
abbrev Values := List (String × String)

/-- The method `Set` of `http.Header` and `url.Values`: the key gets exactly
this value. -/
def Values.Set (m : Values) (key value : String) : Values :=
  m.filter (fun kv => kv.1 ≠ key) ++ [(key, value)]

/-- The type `url.URL`, as `url.Parse` fills it: the part of the string
before the first `#` gives scheme, host, path and query, the part after it is
the fragment. -/
structure URL where
  Scheme : String
  Host : String
  Path : String
  RawQuery : String
  Fragment : String
deriving DecidableEq, Repr

/-- The fields of `http.Request` the program sets. -/
structure Request where
  Method : String
  URL : URL
  Body : Option Bytes
  Header : Values
deriving DecidableEq, Repr

/-- What an HTTP exchange gives back to the program. -/
inductive HttpResult where
  /-- `http.DefaultClient.Do` / `http.PostForm` returned an error. -/
  | doError (err : String)
  /-- A response with this status arrived, reading its body failed. -/
  | readError (status : Int) (err : String)
  /-- A response with this status and this body. -/
  | response (status : Int) (body : Bytes)
deriving DecidableEq, Repr

/-! ## Traces -/

/-- One line written through package `log`. -/
inductive LogLine where
  /-- A fixed text. -/
  | text (s : String)
  /-- The line counter of `processFile`: `log.Println(counter)`. -/
  | counter (n : Nat)
  /-- An error value: `log.Fatalln(err)`, `log.Fatal(err)`. -/
  | error (err : String)
  /-- A fixed text followed by an error value: `log.Fatalln("...", err)`. -/
  | textError (s : String) (err : String)
  /-- The status and body of a response: `log.Fatalf("%s, %s", status, body)`. -/
  | statusBody (status : Int) (body : Bytes)
deriving DecidableEq, Repr

/-- What the program does to the outside world. -/
inductive Event where
  | log (line : LogLine)
  /-- A call of `os.Getwd`. -/
  | getwd
  /-- A call of `filepath.Glob` with this pattern. -/
  | glob (pattern : String)
  /-- The token request: `http.PostForm` with this URL and form, and its result. -/
  | postForm (url : String) (form : Values) (result : HttpResult)
  /-- A call of `os.Open` with this name. -/
  | openFile (name : String)
  /-- A search request sent with `http.DefaultClient.Do`, and its result. -/
  | search (request : Request) (result : HttpResult)
  /-- A call of `time.Sleep`, the duration in nanoseconds. -/
  | sleep (d : Nat)
  /-- Bytes written to standard output by one `fmt.Printf`. -/
  | stdout (bytes : Bytes)
deriving DecidableEq, Repr

/-- The trace of a run: its events, oldest first. -/
abbrev Trace := List Event

/-- How a function of the program ends. -/
inductive Outcome (α : Type) where
  /-- It returned `val`; `trace` is the trace so far. -/
  | ok (val : α) (trace : Trace)
  /-- A `log.Fatal*` call ended the process; `trace` is the trace of the run. -/
  | fatal (trace : Trace)
deriving DecidableEq, Repr

/-- The trace an outcome carries. -/
def Outcome.trace {α : Type} : Outcome α → Trace
  | .ok _ t => t
  | .fatal t => t

/-- Whether the process was ended by a `log.Fatal*` call. -/
def Outcome.isFatal {α : Type} : Outcome α → Bool
  | .ok _ _ => false
  | .fatal _ => true

/-! ## The outside world -/

/-- Everything the program reads from its environment.  The standard library
functions whose code is not part of the repository are fields here. -/
structure World where
  /-- The positional arguments: `flag.Args()` after `flag.Parse()`. -/
  args : List String
  /-- The value of flag `-client_id` (default `""`). -/
  clientid : String
  /-- The value of flag `-client_secret` (default `""`). -/
  clientsecret : String
  /-- The result of `os.Getwd`. -/
  getwd : Except String String
  /-- The function `filepath.Join` on two elements. -/
  join : String → String → String
  /-- The result of `filepath.Glob` on a pattern. -/
  glob : String → Except String (List String)
  /-- The result of `os.Open`: an error, or the bytes the file delivers. -/
  osOpen : String → Except String Bytes
  /-- What `http.NewRequest` makes of a method and a URL string: the error it
  returns (the method is not valid, `url.Parse` rejects the string), or the
  parsed URL of the request it returns. -/
  newRequestURL : String → String → Except String URL
  /-- The result of `http.PostForm`. -/
  postForm : Trace → String → Values → HttpResult
  /-- The result of `http.DefaultClient.Do` followed by `ioutil.ReadAll`; it
  may depend on everything that happened before. -/
  httpDo : Trace → Request → HttpResult
  /-- The effect of `json.NewDecoder(body).Decode` on an `AccessToken`. -/
  decodeToken : Bytes → Except String AccessToken
  /-- The effect of `json.Unmarshal` on a `Person`. -/
  unmarshalPerson : Bytes → Except String Person
  /-- The effect of `json.Unmarshal` on an `ORCIDResponse`. -/
  unmarshalResponse : Bytes → Except String ORCIDResponse

/-! ## `bufio.Scanner` with the default split function `bufio.ScanLines` -/

/-- The constant `bufio.MaxScanTokenSize`: the size the scanner's buffer may
grow to. -/
def MaxScanTokenSize : Nat := 64 * 1024

/-- The helper `dropCR` of package `bufio`: drop one trailing `\r`. -/
def dropCR (data : Bytes) : Bytes :=
  if data.getLast? = some 13 then data.dropLast else data

/-- The tokens `Scan` delivers: `cur` holds, newest first, the bytes of the
line being read.  A line ends at `\n`; at the end of the data a non-empty
rest is a last line.  A line of `MaxScanTokenSize` bytes or more fills the
buffer before its end is seen: `Scan` returns `false` (`ErrTooLong`) and the
loop of `processFile`, which never looks at `Err()`, just ends. -/
def scanFrom : Bytes → Bytes → List Bytes
  | [], cur =>
    if cur.isEmpty then []
    else if MaxScanTokenSize ≤ cur.length then []
    else [dropCR cur.reverse]
  | b :: rest, cur =>
    if b = 10 then
      if MaxScanTokenSize ≤ cur.length then []
      else dropCR cur.reverse :: scanFrom rest []
    else scanFrom rest (b :: cur)

/-- The lines `for fileScanner.Scan()` iterates over, for a file delivering
`data`. -/
def scanLines (data : Bytes) : List Bytes := scanFrom data []

/-! ## The program -/

/-- The function `findFilesToProcess`. -/
def findFilesToProcess (w : World) (h : Trace) : Outcome (List String) :=
  if w.args.length = 0 then
    let h := h ++ [.log (.text ("No file names provided, trying to find files ending with "
      ++ "Person-export.json in current working directory."))]
    match w.getwd with
    | .error err =>
      .fatal (h ++ [.getwd, .log (.textError "Error getting working directory. " err)])
    | .ok workingDir =>
      let pattern := w.join workingDir "*Person-export.json"
      match w.glob pattern with
      | .error err =>
        .fatal (h ++ [.getwd, .glob pattern,
          .log (.textError "Error finding matching files. " err)])
      | .ok matched => .ok matched (h ++ [.getwd, .glob pattern])
  else
    .ok w.args h

/-- The URL of the token endpoint. -/
def tokenURL : String := "https://orcid.org/oauth/token"

/-- The form `getORCIDSearchToken` posts. -/
def tokenForm (w : World) : Values :=
  let v : Values := []
  let v := v.Set "client_id" w.clientid
  let v := v.Set "client_secret" w.clientsecret
  let v := v.Set "grant_type" "client_credentials"
  v.Set "scope" "/read-public"

/-- The function `getORCIDSearchToken`.  With status 200 the body is read by
the JSON decoder: `readError` then stands for a read error that reaches the
decoder before it has a complete value. -/
def getORCIDSearchToken (w : World) (h : Trace) : Outcome String :=
  let v := tokenForm w
  let result := w.postForm h tokenURL v
  let h := h ++ [.postForm tokenURL v result]
  match result with
  | .doError err => .fatal (h ++ [.log (.error err)])
  | .readError status err =>
    if status ≠ 200 then
      .fatal (h ++ [.log (.text "Unable to get access token from API."), .log (.error err)])
    else
      .fatal (h ++ [.log (.error err)])
  | .response status bodyBytes =>
    if status ≠ 200 then
      .fatal (h ++ [.log (.text "Unable to get access token from API."),
        .log (.statusBody status bodyBytes)])
    else
      match w.decodeToken bodyBytes with
      | .error err => .fatal (h ++ [.log (.error err)])
      | .ok token => .ok token.AccessToken h

/-- The URL of the search endpoint up to the value looked up. -/
def searchURL : String := "https://pub.orcid.org/v2.0/search/?q=eid-self:"

/-- The function `http.NewRequest`: an error, or a request with the method
and body given, the URL parsed from the string given, and an empty header. -/
def NewRequest (w : World) (method url : String) (body : Option Bytes) :
    Except String Request :=
  match w.newRequestURL method url with
  | .error err => .error err
  | .ok parsed => .ok { Method := method, URL := parsed, Body := body, Header := [] }

/-- The request `processFile` builds for a value (lines 118 to 123), or the
error of `http.NewRequest`. -/
def buildRequest (w : World) (value token : String) : Except String Request :=
  match NewRequest w "GET" (searchURL ++ value) none with
  | .error err => .error err
  | .ok request =>
    let request := { request with Header := request.Header.Set "Accept" "application/vnd.orcid+json" }
    .ok { request with Header := request.Header.Set "Authorization" ("Bearer " ++ token) }

/-- The constant `time.Millisecond`, in nanoseconds. -/
def Millisecond : Nat := 1000000

/-- The verb `%v` of package `fmt` on an identifier entry. -/
def formatIdentifier (i : IdentifierEntry) : String :=
  "\x7b" ++ i.Scheme ++ " " ++ i.Value ++ "\x7d"

/-- The verb `%v` of package `fmt` on a `Person`. -/
def formatPerson (person : Person) : String :=
  "\x7b" ++ person.FamilyName ++ " " ++ person.GivenName ++ " " ++ person.ID ++ " ["
    ++ " ".intercalate (person.Identifier.map formatIdentifier) ++ "]\x7d"

/-- What the first `fmt.Printf` of `processFile` writes. -/
def personMessage (person : Person) : Bytes :=
  utf8 ("This person:\n " ++ formatPerson person
    ++ "\nhas their Scopus ID in their ORCID profile.")

/-- What the second `fmt.Printf` of `processFile` writes: `"%s\n"` of the body. -/
def bodyMessage (bodyBytes : Bytes) : Bytes := bodyBytes ++ [10]

/-- The body of `if identifier.Scheme == "scopus"` in `processFile` (lines
118 to 153): one lookup. -/
def lookup (w : World) (token : String) (person : Person) (identifier : IdentifierEntry)
    (h : Trace) : Outcome Unit :=
  match buildRequest w identifier.Value token with
  | .error err => .fatal (h ++ [.log (.error err)])
  | .ok request =>
    let result := w.httpDo h request
    let h := h ++ [.search request result]
    match result with
    | .doError err => .fatal (h ++ [.log (.error err)])
    | .readError _ err => .fatal (h ++ [.log (.error err)])
    | .response status bodyBytes =>
      if status ≠ 200 then
        .fatal (h ++ [.log (.text "Bad HTTP status from API."),
          .log (.statusBody status bodyBytes)])
      else
        match w.unmarshalResponse bodyBytes with
        | .error err => .fatal (h ++ [.log (.error err)])
        | .ok response =>
          let h := h ++ [.sleep (1 * Millisecond)]
          if response.NumFound > 0 then
            .ok () (h ++ [.stdout (personMessage person), .stdout (bodyMessage bodyBytes)])
          else
            .ok () h

/-- The loop `for _, identifier := range person.Identifier` of `processFile`. -/
def processIdentifiers (w : World) (token : String) (person : Person) :
    List IdentifierEntry → Trace → Outcome Unit
  | [], h => .ok () h
  | identifier :: rest, h =>
    if identifier.Scheme = "scopus" then
      match lookup w token person identifier h with
      | .fatal t => .fatal t
      | .ok _ t => processIdentifiers w token person rest t
    else
      processIdentifiers w token person rest h

/-- The loop `for fileScanner.Scan()` of `processFile`, over the lines the
scanner delivers; `counter` is the variable of that name. -/
def processLines (w : World) (token : String) : List Bytes → Nat → Trace → Outcome Unit
  | [], _, h => .ok () h
  | line :: rest, counter, h =>
    let counter := counter + 1
    let h := h ++ [.log (.counter counter)]
    match w.unmarshalPerson line with
    | .error err => .fatal (h ++ [.log (.error err)])
    | .ok person =>
      match processIdentifiers w token person person.Identifier h with
      | .fatal t => .fatal t
      | .ok _ t => processLines w token rest counter t

/-- The function `processFile`. -/
def processFile (w : World) (filename token : String) (h : Trace) : Outcome Unit :=
  let h := h ++ [.openFile filename]
  match w.osOpen filename with
  | .error err => .fatal (h ++ [.log (.error err)])
  | .ok data => processLines w token (scanLines data) 0 h

/-- The loop `for _, fileName := range filesToProcess` of `main`. -/
def processFiles (w : World) (token : String) : List String → Trace → Outcome Unit
  | [], h => .ok () h
  | fileName :: rest, h =>
    match processFile w fileName token h with
    | .fatal t => .fatal t
    | .ok _ t => processFiles w token rest t

/-- The function `main`, after `flag.Parse()`. -/
def main (w : World) : Outcome Unit :=
  match findFilesToProcess w [] with
  | .fatal t => .fatal t
  | .ok filesToProcess h =>
    if filesToProcess.length = 0 then
      .fatal (h ++ [.log (.text "Could not find any files to process.")])
    else if w.clientid = "" then
      .fatal (h ++ [.log (.text "You need to provide a client_id")])
    else if w.clientsecret = "" then
      .fatal (h ++ [.log (.text "You need to provide a client_secret")])
    else
      match getORCIDSearchToken w h with
      | .fatal t => .fatal t
      | .ok token h => processFiles w token filesToProcess h

/-! ## Reading traces -/

/-- Whether the event is a line of the log. -/
def Event.isLog : Event → Bool
  | .log _ => true
  | _ => false

/-- Whether the event contacts the token endpoint. -/
def Event.isTokenRequest : Event → Bool
  | .postForm _ _ _ => true
  | _ => false

/-- Whether the event opens an input file. -/
def Event.isOpenFile : Event → Bool
  | .openFile _ => true
  | _ => false

/-- Whether the event is a search request. -/
def Event.isSearch : Event → Bool
  | .search _ _ => true
  | _ => false

/-- Whether the event is a sleep. -/
def Event.isSleep : Event → Bool
  | .sleep _ => true
  | _ => false

/-- Whether the event writes to standard output. -/
def Event.isStdout : Event → Bool
  | .stdout _ => true
  | _ => false

/-- Whether the event writes the body of a response to the log. -/
def Event.isBodyLog : Event → Bool
  | .log (.statusBody _ _) => true
  | _ => false

/-- The search requests of a trace, in order. -/
def searches : Trace → List Request
  | [] => []
  | .search request _ :: t => request :: searches t
  | _ :: t => searches t

/-- Everything a trace writes to standard output. -/
def written : Trace → Bytes
  | [] => []
  | .stdout bytes :: t => bytes ++ written t
  | _ :: t => written t

/-- The events of a trace that belong to lookups: requests, sleeps, output. -/
def lookupEvents (t : Trace) : Trace :=
  t.filter (fun e => e.isSearch || e.isSleep || e.isStdout)

/-- Whether the exchange gave a response with status 200 (`http.StatusOK`):
no error from the client, none from reading the body, no other status. -/
def HttpResult.isOK : HttpResult → Bool
  | .response status _ => decide (status = 200)
  | _ => false

/-- The log lines with which a lookup ends the run after an exchange that is
not `isOK`: the error of the client or of reading the body, or else the
message about the status and the line with status and body. -/
def failureLog : HttpResult → List Event
  | .doError err => [.log (.error err)]
  | .readError _ err => [.log (.error err)]
  | .response status bodyBytes =>
    [.log (.text "Bad HTTP status from API."), .log (.statusBody status bodyBytes)]

/-- A GET without body for a parsed URL, with the two headers of the
program and the token. -/
def searchRequest (parsed : URL) (token : String) : Request :=
  { Method := "GET"
    URL := parsed
    Body := none
    Header := [("Accept", "application/vnd.orcid+json"), ("Authorization", "Bearer " ++ token)] }

/-- The request is the search request for the value: `http.NewRequest`
accepts the search URL with the value appended unchanged, and the request is
the GET without body for the URL parsed from that string, with the two
headers. -/
def RequestFor (w : World) (token value : String) (r : Request) : Prop :=
  ∃ parsed, w.newRequestURL "GET" (searchURL ++ value) = .ok parsed ∧
    r = searchRequest parsed token

/-- Whether the event is not a search request, or is a search request
answered with status 200 and a body that decodes. -/
def Event.isAnswered (w : World) : Event → Bool
  | .search _ (.response status bodyBytes) =>
    decide (status = 200) &&
      (match w.unmarshalResponse bodyBytes with
        | .ok _ => true
        | .error _ => false)
  | .search _ _ => false
  | _ => true

/-- The lookups a line asks for: its person with each of the person's
identifiers of scheme `scopus`, in the order of the list. -/
def lineLookups (w : World) (line : Bytes) : List (Person × IdentifierEntry) :=
  match w.unmarshalPerson line with
  | .ok person =>
    (person.Identifier.filter (fun i => i.Scheme = "scopus")).map (fun i => (person, i))
  | .error _ => []

/-- The lookups a file asks for, in the order of the lines the scanner
delivers. -/
def fileLookups (w : World) (fileName : String) : List (Person × IdentifierEntry) :=
  match w.osOpen fileName with
  | .ok data => (scanLines data).flatMap (lineLookups w)
  | .error _ => []

/-- The lookups a list of files asks for: file by file, line by line,
identifier by identifier. -/
def expectedLookups (w : World) (files : List String) : List (Person × IdentifierEntry) :=
  files.flatMap (fileLookups w)

/-- The events of an answered lookup of an identifier of a person: the
request for the value, answered with status 200 and a body that decodes, the
sleep, and the report of the person with the body exactly when `num-found`
is positive. -/
def AnsweredLookup (w : World) (token : String) (pi : Person × IdentifierEntry)
    (es : List Event) : Prop :=
  ∃ parsed bodyBytes response,
    w.newRequestURL "GET" (searchURL ++ pi.2.Value) = .ok parsed ∧
    w.unmarshalResponse bodyBytes = .ok response ∧
    es = [.search (searchRequest parsed token) (.response 200 bodyBytes),
        .sleep (1 * Millisecond)] ++
      if response.NumFound > 0 then
        [.stdout (personMessage pi.1), .stdout (bodyMessage bodyBytes)]
      else []

/-! ## Concrete worlds -/

/-- The line of the end-to-end scenario. -/
def doeLine : Bytes :=
  utf8 ("\x7b\"family_name\":\"Doe\",\"given_name\":\"Jane\",\"__id__\":\"p1\","
    ++ "\"identifier\":[\x7b\"scheme\":\"scopus\",\"value\":\"123\"\x7d]\x7d")

/-- The person `doeLine` decodes to. -/
def doe : Person :=
  { FamilyName := "Doe", GivenName := "Jane", ID := "p1",
    Identifier := [{ Scheme := "scopus", Value := "123" }] }

/-- A line whose only identifier has scheme `Scopus`, with a capital. -/
def roeLine : Bytes :=
  utf8 ("\x7b\"family_name\":\"Roe\",\"given_name\":\"Rik\",\"__id__\":\"p2\","
    ++ "\"identifier\":[\x7b\"scheme\":\"Scopus\",\"value\":\"7\"\x7d]\x7d")

/-- The person `roeLine` decodes to. -/
def roe : Person :=
  { FamilyName := "Roe", GivenName := "Rik", ID := "p2",
    Identifier := [{ Scheme := "Scopus", Value := "7" }] }

/-- A line whose scopus value makes a URL with a malformed escape in its
fragment, which `url.Parse`, and with it `http.NewRequest`, rejects. -/
def zedLine : Bytes :=
  utf8 ("\x7b\"family_name\":\"Zed\",\"given_name\":\"Zoe\",\"__id__\":\"p3\","
    ++ "\"identifier\":[\x7b\"scheme\":\"scopus\",\"value\":\"1#%zz\"\x7d]\x7d")

/-- The person `zedLine` decodes to. -/
def zed : Person :=
  { FamilyName := "Zed", GivenName := "Zoe", ID := "p3",
    Identifier := [{ Scheme := "scopus", Value := "1#%zz" }] }

/-- The URL `url.Parse` makes of the search URL followed by a value without
`#`: the value is the end of the query. -/
def exampleURL (value : String) : URL :=
  { Scheme := "https"
    Host := "pub.orcid.org"
    Path := "/v2.0/search/"
    RawQuery := "q=eid-self:" ++ value
    Fragment := "" }

/-- A world for examples: the file `a.json` delivers `data`, every search is
answered by `answer`; `http.NewRequest` knows the search URLs of the values
`123` and `456` and rejects the one of `1#%zz`; the decoders know the lines
and bodies of the examples and, like `encoding/json`, reject the empty
input. -/
def exampleWorld (data : Bytes) (answer : HttpResult) : World :=
  { args := ["a.json"]
    clientid := "id"
    clientsecret := "secret"
    getwd := .ok "/data"
    join := fun dir name => dir ++ "/" ++ name
    glob := fun _ => .ok []
    osOpen := fun name =>
      if name = "a.json" then .ok data else .error "open: no such file or directory"
    newRequestURL := fun _ url =>
      if url = searchURL ++ "123" then .ok (exampleURL "123")
      else if url = searchURL ++ "456" then .ok (exampleURL "456")
      else if url = searchURL ++ "1#%zz" then .error "parse: invalid URL escape \"%zz\""
      else .error "parse: not a URL of the examples"
    postForm := fun _ _ _ => .response 200 (utf8 "\x7b\"access_token\":\"tok\"\x7d")
    httpDo := fun _ _ => answer
    decodeToken := fun body =>
      if body = utf8 "\x7b\"access_token\":\"tok\"\x7d" then
        .ok { AccessToken := "tok", TokenType := "", Scope := "" }
      else .error "invalid character"
    unmarshalPerson := fun line =>
      if line = doeLine then .ok doe
      else if line = roeLine then .ok roe
      else if line = zedLine then .ok zed
      else if line = [] then .error "unexpected end of JSON input"
      else .error "invalid character"
    unmarshalResponse := fun body =>
      if body = utf8 "\x7b\"num-found\":1\x7d" then .ok { NumFound := 1 }
      else if body = utf8 "\x7b\"num-found\":0\x7d" then .ok { NumFound := 0 }
      else .error "invalid character" }

/-- The world of the examples with a server that answers the first two
search requests of a run with `answer` and every later one with status 429. -/
def throttledWorld (data : Bytes) (answer : HttpResult) : World :=
  { exampleWorld data answer with
    httpDo := fun t _ =>
      if (searches t).length < 2 then answer else .response 429 (utf8 "slow down") }

/-- The request the examples send for the value `123` with the token `tok`. -/
def doeRequest : Request :=
  { Method := "GET"
    URL := exampleURL "123"
    Body := none
    Header := [("Accept", "application/vnd.orcid+json"), ("Authorization", "Bearer tok")] }

set_option maxRecDepth 100000

/-! ## Sequencing lemmas -/

theorem processIdentifiers_append (w : World) (token : String) (person : Person)
    (a b : List IdentifierEntry) (h : Trace) :
    processIdentifiers w token person (a ++ b) h =
      match processIdentifiers w token person a h with
      | .fatal t => .fatal t
      | .ok _ t => processIdentifiers w token person b t := by
  induction a generalizing h with
  | nil => simp [processIdentifiers]
  | cons i a ih =>
    simp only [List.cons_append, processIdentifiers]
    split
    · cases hl : lookup w token person i h with
      | fatal t => simp
      | ok v t => simp [ih]
    · exact ih h

theorem processLines_append (w : World) (token : String) (a b : List Bytes) (counter : Nat)
    (h : Trace) :
    processLines w token (a ++ b) counter h =
      match processLines w token a counter h with
      | .fatal t => .fatal t
      | .ok _ t => processLines w token b (counter + a.length) t := by
  induction a generalizing counter h with
  | nil => simp [processLines]
  | cons line a ih =>
    simp only [List.cons_append, processLines, List.length_cons]
    cases hd : w.unmarshalPerson line with
    | error err => simp
    | ok person =>
      simp only
      cases hp : processIdentifiers w token person person.Identifier
          (h ++ [.log (.counter (counter + 1))]) with
      | fatal t => simp
      | ok v t =>
        have hc : counter + (a.length + 1) = counter + 1 + a.length := by omega
        rw [hc]
        exact ih (counter + 1) t

theorem processFiles_append (w : World) (token : String) (a b : List String) (h : Trace) :
    processFiles w token (a ++ b) h =
      match processFiles w token a h with
      | .fatal t => .fatal t
      | .ok _ t => processFiles w token b t := by
  induction a generalizing h with
  | nil => simp [processFiles]
  | cons f a ih =>
    simp only [List.cons_append, processFiles]
    cases hf : processFile w f token h with
    | fatal t => simp
    | ok v t => simp [ih]

/-- A person without scopus identifiers goes through the identifier loop
without any effect. -/
theorem processIdentifiers_no_scopus (w : World) (token : String) (person : Person)
    (ids : List IdentifierEntry) (h : Trace)
    (hno : ∀ i ∈ ids, i.Scheme ≠ "scopus") :
    processIdentifiers w token person ids h = .ok () h := by
  induction ids with
  | nil => rfl
  | cons i ids ih =>
    have hi : i.Scheme ≠ "scopus" := hno i (List.mem_cons_self _ _)
    simp only [processIdentifiers, hi, if_false]
    exact ih (fun j hj => hno j (List.mem_cons_of_mem _ hj))

/-! ## Records without a scopus identifier -/

/-- C1: a line that decodes to a person none of whose identifiers has scheme
exactly `"scopus"` (an empty list and a scheme such as `"Scopus"` included)
has no effect but the log line of the counter: the identifier loop leaves the
trace as it was (no search request, no sleep, nothing printed) and the run
goes on with the next line. -/
theorem line_without_scopus_has_no_effect (w : World) (token : String) (line : Bytes)
    (rest : List Bytes) (counter : Nat) (h : Trace) (person : Person)
    (hdec : w.unmarshalPerson line = .ok person)
    (hno : ∀ i ∈ person.Identifier, i.Scheme ≠ "scopus") :
    (∀ t, processIdentifiers w token person person.Identifier t = .ok () t) ∧
    processLines w token (line :: rest) counter h =
      processLines w token rest (counter + 1) (h ++ [.log (.counter (counter + 1))]) := by
  have hloop : ∀ t, processIdentifiers w token person person.Identifier t = .ok () t :=
    fun t => processIdentifiers_no_scopus w token person person.Identifier t hno
  refine ⟨hloop, ?_⟩
  simp only [processLines, hdec, hloop]

/-- The person of `roeLine` has the scheme `Scopus` only: the line is counted
and nothing else happens, whatever the search would answer. -/
theorem line_without_scopus_has_no_effect_witness :
    (∀ i ∈ roe.Identifier, i.Scheme ≠ "scopus") ∧
    processLines (exampleWorld roeLine (.response 200 (utf8 "\x7b\"num-found\":1\x7d"))) "tok"
      [roeLine] 0 [] = .ok () [.log (.counter 1)] :=
  ⟨by decide,
    (line_without_scopus_has_no_effect
      (exampleWorld roeLine (.response 200 (utf8 "\x7b\"num-found\":1\x7d"))) "tok"
      roeLine [] 0 [] roe (by rfl) (by decide)).2⟩

/-! ## One lookup -/

/-- A lookup whose request is answered with status 200 and a body that
decodes: request, sleep, and the two writes when `num-found` is positive. -/
theorem lookup_answered (w : World) (token : String) (person : Person)
    (identifier : IdentifierEntry) (h : Trace) (request : Request) (bodyBytes : Bytes)
    (response : ORCIDResponse)
    (hreq : buildRequest w identifier.Value token = .ok request)
    (hdo : w.httpDo h request = .response 200 bodyBytes)
    (hdec : w.unmarshalResponse bodyBytes = .ok response) :
    lookup w token person identifier h =
      .ok () (h ++ ([.search request (.response 200 bodyBytes), .sleep (1 * Millisecond)] ++
        if response.NumFound > 0 then
          [.stdout (personMessage person), .stdout (bodyMessage bodyBytes)]
        else [])) := by
  simp only [lookup, hreq, hdo, hdec]
  by_cases hn : response.NumFound > 0 <;> simp [hn]

/-- C2: when the search request of a scopus identifier is answered with
status 200 and a body that decodes, the lookup sends the request, sleeps, and
then prints if and only if `num-found` is greater than 0: what it writes to
standard output is then the message with the person record followed by the
body exactly as received and a newline, and nothing otherwise. -/
theorem lookup_prints_iff_found (w : World) (token : String) (person : Person)
    (identifier : IdentifierEntry) (h : Trace) (request : Request) (bodyBytes : Bytes)
    (response : ORCIDResponse)
    (hreq : buildRequest w identifier.Value token = .ok request)
    (hdo : w.httpDo h request = .response 200 bodyBytes)
    (hdec : w.unmarshalResponse bodyBytes = .ok response) :
    lookup w token person identifier h =
      .ok () (h ++ [.search request (.response 200 bodyBytes), .sleep (1 * Millisecond)] ++
        if response.NumFound > 0 then
          [.stdout (personMessage person), .stdout (bodyMessage bodyBytes)]
        else []) ∧
    written ((lookup w token person identifier h).trace.drop h.length) =
      if response.NumFound > 0 then personMessage person ++ (bodyBytes ++ [10]) else [] := by
  have hl : lookup w token person identifier h =
      .ok () (h ++ [.search request (.response 200 bodyBytes), .sleep (1 * Millisecond)] ++
        if response.NumFound > 0 then
          [.stdout (personMessage person), .stdout (bodyMessage bodyBytes)]
        else []) := by
    rw [lookup_answered w token person identifier h request bodyBytes response hreq hdo hdec,
      List.append_assoc]
  refine ⟨hl, ?_⟩
  rw [hl]
  by_cases hn : response.NumFound > 0 <;>
    simp [hn, Outcome.trace, List.append_assoc, written, bodyMessage]

/-- The end-to-end scenario: for Doe/Jane/p1 with scopus value 123 the body
`{"num-found":1}` makes the lookup print the person and the body, and the
body `{"num-found":0}` makes it print nothing. -/
theorem lookup_prints_iff_found_witness :
    written ((lookup (exampleWorld (doeLine ++ [10]) (.response 200 (utf8 "\x7b\"num-found\":1\x7d")))
      "tok" doe { Scheme := "scopus", Value := "123" } []).trace.drop 0) =
      utf8 ("This person:\n \x7bDoe Jane p1 [\x7bscopus 123\x7d]\x7d\n"
        ++ "has their Scopus ID in their ORCID profile.") ++ utf8 "\x7b\"num-found\":1\x7d\n" ∧
    written ((lookup (exampleWorld (doeLine ++ [10]) (.response 200 (utf8 "\x7b\"num-found\":0\x7d")))
      "tok" doe { Scheme := "scopus", Value := "123" } []).trace.drop 0) = [] :=
  ⟨(lookup_prints_iff_found
      (exampleWorld (doeLine ++ [10]) (.response 200 (utf8 "\x7b\"num-found\":1\x7d")))
      "tok" doe { Scheme := "scopus", Value := "123" } [] doeRequest
      (utf8 "\x7b\"num-found\":1\x7d") { NumFound := 1 } (by rfl) (by rfl) (by rfl)).2.trans (by rfl),
   (lookup_prints_iff_found
      (exampleWorld (doeLine ++ [10]) (.response 200 (utf8 "\x7b\"num-found\":0\x7d")))
      "tok" doe { Scheme := "scopus", Value := "123" } [] doeRequest
      (utf8 "\x7b\"num-found\":0\x7d") { NumFound := 0 } (by rfl) (by rfl) (by rfl)).2.trans (by rfl)⟩

/-! ## A line that does not decode -/

/-- C3: when the run reaches a line that does not decode into a `Person`
(the files before it and the lines before it went through), it ends fatally
right there: the trace is the trace of the earlier files and lines, the log
line of the counter and the log line of the error.  No identifier of that
line or of a later line is looked up and no later file is opened. -/
theorem decode_failure_ends_run (w : World) (token : String) (before after : List String)
    (fileName : String) (h h1 h2 : Trace) (data : Bytes) (earlier later : List Bytes)
    (line : Bytes) (err : String)
    (hfiles : processFiles w token before h = .ok () h1)
    (hopen : w.osOpen fileName = .ok data)
    (hscan : scanLines data = earlier ++ line :: later)
    (hlines : processLines w token earlier 0 (h1 ++ [.openFile fileName]) = .ok () h2)
    (hbad : w.unmarshalPerson line = .error err) :
    processFiles w token (before ++ fileName :: after) h =
      .fatal (h2 ++ [.log (.counter (earlier.length + 1)), .log (.error err)]) := by
  rw [processFiles_append, hfiles]
  simp only [processFiles, processFile, hopen, hscan]
  rw [processLines_append, hlines]
  simp [processLines, hbad]

/-- A file whose second line is not JSON, followed by a second file: the
first line is looked up, the run ends at the second line, the third line and
the second file are never touched. -/
theorem decode_failure_ends_run_witness :
    processFiles
      (exampleWorld (doeLine ++ utf8 "\noops\n" ++ doeLine)
        (.response 200 (utf8 "\x7b\"num-found\":0\x7d")))
      "tok" ([] ++ "a.json" :: ["b.json"]) [] =
      .fatal ([.openFile "a.json", .log (.counter 1),
        .search doeRequest (.response 200 (utf8 "\x7b\"num-found\":0\x7d")),
        .sleep 1000000] ++ [.log (.counter (1 + 1)), .log (.error "invalid character")]) :=
  decode_failure_ends_run
    (exampleWorld (doeLine ++ utf8 "\noops\n" ++ doeLine)
      (.response 200 (utf8 "\x7b\"num-found\":0\x7d")))
    "tok" [] ["b.json"] "a.json" [] [] _ (doeLine ++ utf8 "\noops\n" ++ doeLine)
    [doeLine] [doeLine] (utf8 "oops") "invalid character"
    (by rfl) (by rfl) (by rfl) (by rfl) (by rfl)

/-! ## `main`: credentials and file discovery -/

/-- The trace of `findFilesToProcess` holds log lines, `os.Getwd` and
`filepath.Glob` only. -/
theorem findFilesToProcess_trace (w : World) :
    ∀ e ∈ (findFilesToProcess w []).trace,
      e.isTokenRequest = false ∧ e.isOpenFile = false ∧ e.isSearch = false := by
  intro e he
  unfold findFilesToProcess at he
  split at he
  · cases hg : w.getwd with
    | error err =>
      simp only [hg, Outcome.trace] at he
      simp at he
      rcases he with rfl | rfl | rfl <;> simp [Event.isTokenRequest, Event.isOpenFile, Event.isSearch]
    | ok wd =>
      simp only [hg] at he
      cases hgl : w.glob (w.join wd "*Person-export.json") with
      | error err =>
        simp only [hgl, Outcome.trace] at he
        simp at he
        rcases he with rfl | rfl | rfl | rfl <;>
          simp [Event.isTokenRequest, Event.isOpenFile, Event.isSearch]
      | ok found =>
        simp only [hgl, Outcome.trace] at he
        simp at he
        rcases he with rfl | rfl | rfl <;>
          simp [Event.isTokenRequest, Event.isOpenFile, Event.isSearch]
  · simp [Outcome.trace] at he

/-- C4: when `client_id` or `client_secret` is the empty string, `main` ends
fatally and its trace holds no request to the token endpoint, no opening of
an input file and no search request. -/
theorem missing_credentials_end_run (w : World)
    (hmissing : w.clientid = "" ∨ w.clientsecret = "") :
    (main w).isFatal = true ∧
    ∀ e ∈ (main w).trace,
      e.isTokenRequest = false ∧ e.isOpenFile = false ∧ e.isSearch = false := by
  have hfind := findFilesToProcess_trace w
  unfold main
  cases hf : findFilesToProcess w [] with
  | fatal t =>
    rw [hf] at hfind
    exact ⟨rfl, hfind⟩
  | ok files t =>
    rw [hf] at hfind
    simp only [Outcome.trace] at hfind
    have hlog : ∀ (s : String), ∀ e ∈ t ++ [Event.log (.text s)],
        e.isTokenRequest = false ∧ e.isOpenFile = false ∧ e.isSearch = false := by
      intro s e he
      rcases List.mem_append.1 he with he | he
      · exact hfind e he
      · simp at he
        subst he
        simp [Event.isTokenRequest, Event.isOpenFile, Event.isSearch]
    simp only
    by_cases h0 : files.length = 0
    · simp only [h0, if_true]
      exact ⟨rfl, hlog _⟩
    · simp only [h0, if_false]
      by_cases h1 : w.clientid = ""
      · simp only [h1, if_true]
        exact ⟨rfl, hlog _⟩
      · have h2 : w.clientsecret = "" := hmissing.resolve_left h1
        simp only [h1, h2, if_false, if_true]
        exact ⟨rfl, hlog _⟩

/-- Without `client_secret` the run with the file `a.json` ends with the
message asking for it, before anything else happens. -/
theorem missing_credentials_end_run_witness :
    main { exampleWorld doeLine (.response 200 (utf8 "\x7b\"num-found\":1\x7d")) with
      clientsecret := "" } =
      .fatal [.log (.text "You need to provide a client_secret")] ∧
    (main { exampleWorld doeLine (.response 200 (utf8 "\x7b\"num-found\":1\x7d")) with
      clientsecret := "" }).isFatal = true :=
  ⟨by rfl,
    (missing_credentials_end_run
      { exampleWorld doeLine (.response 200 (utf8 "\x7b\"num-found\":1\x7d")) with
        clientsecret := "" } (Or.inr (by rfl))).1⟩

/-- C5: with positional arguments `findFilesToProcess` returns exactly them,
in order, and does nothing else (no `os.Getwd`, no `filepath.Glob`, no check
of the names); without, when the working directory and the glob are obtained,
it returns exactly the matches of `*Person-export.json` joined to the working
directory; and when the list it returns is empty `main` ends fatally without
a request to the token endpoint. -/
theorem file_discovery (w : World) (h : Trace) :
    (w.args ≠ [] → findFilesToProcess w h = .ok w.args h) ∧
    (w.args = [] → ∀ workingDir found, w.getwd = .ok workingDir →
      w.glob (w.join workingDir "*Person-export.json") = .ok found →
      findFilesToProcess w h = .ok found
        (h ++ [.log (.text ("No file names provided, trying to find files ending with "
            ++ "Person-export.json in current working directory.")),
          .getwd, .glob (w.join workingDir "*Person-export.json")])) ∧
    (∀ t, findFilesToProcess w [] = .ok [] t →
      main w = .fatal (t ++ [.log (.text "Could not find any files to process.")]) ∧
      ∀ e ∈ (main w).trace, e.isTokenRequest = false) := by
  refine ⟨?_, ?_, ?_⟩
  · intro hargs
    have : w.args.length ≠ 0 := by simpa using hargs
    simp [findFilesToProcess, this]
  · intro hargs workingDir found hwd hglob
    simp [findFilesToProcess, hargs, hwd, hglob]
  · intro t ht
    have hfind := findFilesToProcess_trace w
    rw [ht] at hfind
    have hm : main w = .fatal (t ++ [.log (.text "Could not find any files to process.")]) := by
      simp [main, ht]
    refine ⟨hm, ?_⟩
    rw [hm]
    intro e he
    rcases List.mem_append.1 he with he | he
    · exact (hfind e he).1
    · simp at he
      subst he
      rfl

/-- With the argument `a.json` the list is `["a.json"]`; without arguments
in `/data` it is what the glob of `/data/*Person-export.json` gives; and when
the glob gives nothing `main` ends before the token request. -/
theorem file_discovery_witness :
    findFilesToProcess (exampleWorld doeLine (.doError "down")) [] = .ok ["a.json"] [] ∧
    findFilesToProcess
      { exampleWorld doeLine (.doError "down") with
        args := []
        glob := fun pattern =>
          if pattern = "/data/*Person-export.json" then .ok ["/data/x-Person-export.json"]
          else .ok [] } [] =
      .ok ["/data/x-Person-export.json"]
        ([] ++ [.log (.text ("No file names provided, trying to find files ending with "
            ++ "Person-export.json in current working directory.")),
          .getwd, .glob "/data/*Person-export.json"]) ∧
    main { exampleWorld doeLine (.doError "down") with args := [] } =
      .fatal ([.log (.text ("No file names provided, trying to find files ending with "
            ++ "Person-export.json in current working directory.")),
          .getwd, .glob "/data/*Person-export.json"]
        ++ [.log (.text "Could not find any files to process.")]) :=
  ⟨(file_discovery (exampleWorld doeLine (.doError "down")) []).1 (by decide),
   (file_discovery
      { exampleWorld doeLine (.doError "down") with
        args := []
        glob := fun pattern =>
          if pattern = "/data/*Person-export.json" then .ok ["/data/x-Person-export.json"]
          else .ok [] } []).2.1 (by rfl) "/data" ["/data/x-Person-export.json"]
      (by rfl) (by rfl),
   ((file_discovery { exampleWorld doeLine (.doError "down") with args := [] } []).2.2
      _ (by rfl)).1⟩

/-! ## The search request -/

theorem searches_append (a b : Trace) : searches (a ++ b) = searches a ++ searches b := by
  induction a with
  | nil => rfl
  | cons e a ih => cases e <;> simp [searches, ih]

/-- What `buildRequest` builds when `http.NewRequest` accepts the URL string. -/
theorem buildRequest_accepted (w : World) (value token : String) (parsed : URL)
    (hurl : w.newRequestURL "GET" (searchURL ++ value) = .ok parsed) :
    buildRequest w value token = .ok (searchRequest parsed token) := by
  simp [buildRequest, NewRequest, hurl, searchRequest, Values.Set]

/-- A lookup that gets its request built sends it, and what follows in its
trace holds no further request. -/
theorem lookup_trace (w : World) (token : String) (person : Person)
    (identifier : IdentifierEntry) (h : Trace) (request : Request)
    (hb : buildRequest w identifier.Value token = .ok request) :
    ∃ es, (lookup w token person identifier h).trace =
        h ++ .search request (w.httpDo h request) :: es ∧ searches es = [] := by
  simp only [lookup, hb]
  cases hd : w.httpDo h request with
  | doError err => exact ⟨[.log (.error err)], by simp [Outcome.trace], rfl⟩
  | readError status err => exact ⟨[.log (.error err)], by simp [Outcome.trace], rfl⟩
  | response status bodyBytes =>
    by_cases hs : status = 200
    · cases hu : w.unmarshalResponse bodyBytes with
      | error err => exact ⟨[.log (.error err)], by simp [hs, hu, Outcome.trace], rfl⟩
      | ok response =>
        by_cases hn : response.NumFound > 0
        · exact ⟨[.sleep (1 * Millisecond), .stdout (personMessage person),
            .stdout (bodyMessage bodyBytes)], by simp [hs, hu, hn, Outcome.trace], rfl⟩
        · exact ⟨[.sleep (1 * Millisecond)], by simp [hs, hu, hn, Outcome.trace], rfl⟩
    · exact ⟨[.log (.text "Bad HTTP status from API."), .log (.statusBody status bodyBytes)],
        by simp [hs, Outcome.trace], rfl⟩

/-- The trace of a lookup extends the trace it starts from. -/
theorem lookup_extends (w : World) (token : String) (person : Person)
    (identifier : IdentifierEntry) (h : Trace) :
    ∃ es, (lookup w token person identifier h).trace = h ++ es := by
  cases hb : buildRequest w identifier.Value token with
  | error err => exact ⟨[.log (.error err)], by simp [lookup, hb, Outcome.trace]⟩
  | ok request =>
    obtain ⟨es, hes, _⟩ := lookup_trace w token person identifier h request hb
    exact ⟨_, hes⟩

/-- The trace of the identifier loop extends the trace it starts from. -/
theorem processIdentifiers_extends (w : World) (token : String) (person : Person)
    (ids : List IdentifierEntry) (h : Trace) :
    ∃ es, (processIdentifiers w token person ids h).trace = h ++ es := by
  induction ids generalizing h with
  | nil => exact ⟨[], by simp [processIdentifiers, Outcome.trace]⟩
  | cons i ids ih =>
    simp only [processIdentifiers]
    by_cases hs : i.Scheme = "scopus"
    · simp only [hs, if_true]
      obtain ⟨es1, hes1⟩ := lookup_extends w token person i h
      cases hl : lookup w token person i h with
      | fatal t =>
        rw [hl] at hes1
        exact ⟨es1, hes1⟩
      | ok v t =>
        rw [hl] at hes1
        obtain ⟨es2, hes2⟩ := ih t
        have ht : t = h ++ es1 := hes1
        exact ⟨es1 ++ es2, by rw [hes2, ht, List.append_assoc]⟩
    · simp only [hs, if_false]
      exact ih h

/-- C7, as stated, fails: the search for Doe is answered with status 500,
the run ends fatally after the two log lines, and its trace holds the search
request and no sleep. -/
theorem no_sleep_after_bad_status :
    processFile (exampleWorld (doeLine ++ [10]) (.response 500 (utf8 "busy")))
      "a.json" "tok" [] =
      .fatal [.openFile "a.json", .log (.counter 1),
        .search doeRequest (.response 500 (utf8 "busy")),
        .log (.text "Bad HTTP status from API."), .log (.statusBody 500 (utf8 "busy"))] ∧
    ∀ e ∈ (processFile (exampleWorld (doeLine ++ [10]) (.response 500 (utf8 "busy")))
      "a.json" "tok" []).trace, e.isSleep = false :=
  ⟨by rfl, by decide⟩

/-- C7, amended: a lookup whose request is answered with status 200 and a
body that decodes sleeps 1 millisecond right after the request, before it
prints anything; a lookup whose request fails in transport, gets another
status or a body that does not decode ends the run with log lines only,
without a sleep. -/
theorem sleep_after_answered_search (w : World) (token : String) (person : Person)
    (identifier : IdentifierEntry) (h : Trace) (request : Request)
    (hreq : buildRequest w identifier.Value token = .ok request) :
    (∀ bodyBytes response, w.httpDo h request = .response 200 bodyBytes →
      w.unmarshalResponse bodyBytes = .ok response →
      ∃ printed, lookup w token person identifier h =
          .ok () (h ++ [.search request (.response 200 bodyBytes), .sleep (1 * Millisecond)]
            ++ printed) ∧
        ∀ e ∈ printed, e.isStdout = true) ∧
    ((∀ bodyBytes response, w.httpDo h request = .response 200 bodyBytes →
        w.unmarshalResponse bodyBytes ≠ .ok response) →
      ∃ logged, lookup w token person identifier h =
          .fatal (h ++ .search request (w.httpDo h request) :: logged) ∧
        ∀ e ∈ logged, e.isLog = true) := by
  constructor
  · intro bodyBytes response hdo hdec
    by_cases hn : response.NumFound > 0
    · exact ⟨[.stdout (personMessage person), .stdout (bodyMessage bodyBytes)],
        by simp [lookup, hreq, hdo, hdec, hn], by simp [Event.isStdout]⟩
    · exact ⟨[], by simp [lookup, hreq, hdo, hdec, hn], by simp⟩
  · intro hbad
    cases hd : w.httpDo h request with
    | doError err =>
      exact ⟨[.log (.error err)], by simp [lookup, hreq, hd], by simp [Event.isLog]⟩
    | readError status err =>
      exact ⟨[.log (.error err)], by simp [lookup, hreq, hd], by simp [Event.isLog]⟩
    | response status bodyBytes =>
      by_cases hs : status = 200
      · cases hu : w.unmarshalResponse bodyBytes with
        | error err =>
          exact ⟨[.log (.error err)], by simp [lookup, hreq, hd, hs, hu], by simp [Event.isLog]⟩
        | ok response =>
          rw [hs] at hd
          exact absurd hu (hbad bodyBytes response hd)
      · exact ⟨[.log (.text "Bad HTTP status from API."), .log (.statusBody status bodyBytes)],
          by simp [lookup, hreq, hd, hs], by simp [Event.isLog]⟩

/-- The lookup for Doe answered with `{"num-found":0}`: request, sleep,
nothing printed. -/
theorem sleep_after_answered_search_witness :
    ∃ printed, lookup (exampleWorld doeLine (.response 200 (utf8 "\x7b\"num-found\":0\x7d")))
        "tok" doe { Scheme := "scopus", Value := "123" } [] =
        .ok () ([] ++ [.search doeRequest (.response 200 (utf8 "\x7b\"num-found\":0\x7d")),
          .sleep (1 * Millisecond)] ++ printed) ∧
      ∀ e ∈ printed, e.isStdout = true :=
  (sleep_after_answered_search (exampleWorld doeLine (.response 200 (utf8 "\x7b\"num-found\":0\x7d")))
    "tok" doe { Scheme := "scopus", Value := "123" } [] doeRequest (by rfl)).1
    (utf8 "\x7b\"num-found\":0\x7d") { NumFound := 0 } (by rfl) (by rfl)

/-! ## A search that fails -/

/-- A lookup whose exchange is not `isOK` ends the run with the request and
the log lines of the failure. -/
theorem lookup_failure (w : World) (token : String) (person : Person)
    (identifier : IdentifierEntry) (h : Trace) (request : Request)
    (hreq : buildRequest w identifier.Value token = .ok request)
    (hfail : (w.httpDo h request).isOK = false) :
    lookup w token person identifier h =
      .fatal (h ++ .search request (w.httpDo h request) :: failureLog (w.httpDo h request)) := by
  cases hd : w.httpDo h request with
  | doError err => simp [lookup, hreq, hd, failureLog]
  | readError status err => simp [lookup, hreq, hd, failureLog]
  | response status bodyBytes =>
    have hs : status ≠ 200 := by simpa [hd, HttpResult.isOK] using hfail
    simp [lookup, hreq, hd, hs, failureLog]

/-- C8, as stated, fails: the search for Doe fails in transport, the run
ends fatally, and the log holds the counter and the error of the client; no
response body is written to it (there is none). -/
theorem no_body_logged_on_transport_failure :
    processFile (exampleWorld (doeLine ++ [10]) (.doError "dial tcp: connection refused"))
      "a.json" "tok" [] =
      .fatal [.openFile "a.json", .log (.counter 1),
        .search doeRequest (.doError "dial tcp: connection refused"),
        .log (.error "dial tcp: connection refused")] ∧
    ∀ e ∈ (processFile
      (exampleWorld (doeLine ++ [10]) (.doError "dial tcp: connection refused"))
      "a.json" "tok" []).trace, e.isBodyLog = false :=
  ⟨by rfl, by decide⟩

/-- C8, amended: when the run reaches a search request (the files, lines and
identifiers before it went through) and the request fails in transport or is
answered with a status other than 200, the run ends fatally right there: its
trace is the trace up to the request, the request, and the log lines of the
failure.  These are the message about the status and the status with the
response body when a response with another status was read, and the error,
without any body, when the client or the reading of the body failed.  Nothing
is printed for the identifier and no further request, line or file is
processed. -/
theorem search_failure_ends_run (w : World) (token : String) (before after : List String)
    (fileName : String) (h h1 h2 h3 : Trace) (data : Bytes) (earlier later : List Bytes)
    (line : Bytes) (person : Person) (idsBefore idsAfter : List IdentifierEntry)
    (identifier : IdentifierEntry) (request : Request)
    (hfiles : processFiles w token before h = .ok () h1)
    (hopen : w.osOpen fileName = .ok data)
    (hscan : scanLines data = earlier ++ line :: later)
    (hlines : processLines w token earlier 0 (h1 ++ [.openFile fileName]) = .ok () h2)
    (hdec : w.unmarshalPerson line = .ok person)
    (hids : person.Identifier = idsBefore ++ identifier :: idsAfter)
    (hbefore : processIdentifiers w token person idsBefore
      (h2 ++ [.log (.counter (earlier.length + 1))]) = .ok () h3)
    (hscheme : identifier.Scheme = "scopus")
    (hreq : buildRequest w identifier.Value token = .ok request)
    (hfail : (w.httpDo h3 request).isOK = false) :
    processFiles w token (before ++ fileName :: after) h =
      .fatal (h3 ++ .search request (w.httpDo h3 request) :: failureLog (w.httpDo h3 request)) ∧
    (∀ e ∈ failureLog (w.httpDo h3 request), e.isLog = true) ∧
    (∀ status bodyBytes, w.httpDo h3 request = .response status bodyBytes →
      failureLog (w.httpDo h3 request) =
        [.log (.text "Bad HTTP status from API."), .log (.statusBody status bodyBytes)]) ∧
    (∀ err, w.httpDo h3 request = .doError err →
      failureLog (w.httpDo h3 request) = [.log (.error err)]) ∧
    (∀ status err, w.httpDo h3 request = .readError status err →
      failureLog (w.httpDo h3 request) = [.log (.error err)]) := by
  refine ⟨?_, ?_, ?_, ?_, ?_⟩
  · rw [processFiles_append, hfiles]
    simp only [processFiles, processFile, hopen, hscan]
    rw [processLines_append, hlines]
    simp only [processLines, hdec, hids, List.length_nil, Nat.zero_add]
    rw [processIdentifiers_append, hbefore]
    simp only [processIdentifiers, hscheme, if_true,
      lookup_failure w token person identifier h3 request hreq hfail]
  · intro e he
    cases hd : w.httpDo h3 request with
    | doError err =>
      rw [hd] at he
      simp [failureLog] at he
      rw [he]
      rfl
    | readError status err =>
      rw [hd] at he
      simp [failureLog] at he
      rw [he]
      rfl
    | response status bodyBytes =>
      rw [hd] at he
      simp [failureLog] at he
      rcases he with rfl | rfl <;> rfl
  · intro status bodyBytes hd
    rw [hd]
    rfl
  · intro err hd
    rw [hd]
    rfl
  · intro status err hd
    rw [hd]
    rfl

/-- The search for Doe, in the first of two files, is answered with status
500 although its body would decode to `num-found` 1: the run ends with the
status and the body in the log, nothing is printed, the second line and the
second file are not touched. -/
theorem search_failure_ends_run_witness :
    processFiles
      (exampleWorld (doeLine ++ [10] ++ doeLine) (.response 500 (utf8 "\x7b\"num-found\":1\x7d")))
      "tok" ([] ++ "a.json" :: ["b.json"]) [] =
      .fatal ([.openFile "a.json", .log (.counter 1)] ++
        .search doeRequest (.response 500 (utf8 "\x7b\"num-found\":1\x7d")) ::
        [.log (.text "Bad HTTP status from API."),
          .log (.statusBody 500 (utf8 "\x7b\"num-found\":1\x7d"))]) :=
  (search_failure_ends_run
    (exampleWorld (doeLine ++ [10] ++ doeLine) (.response 500 (utf8 "\x7b\"num-found\":1\x7d")))
    "tok" [] ["b.json"] "a.json" [] [] [.openFile "a.json"]
    [.openFile "a.json", .log (.counter 1)] (doeLine ++ [10] ++ doeLine) [] [doeLine] doeLine
    doe [] [] { Scheme := "scopus", Value := "123" } doeRequest
    (by rfl) (by rfl) (by rfl) (by rfl) (by rfl) (by rfl) (by rfl) (by rfl) (by rfl) (by rfl)).1

/-! ## Empty lines -/

/-- The scanner delivers an empty line as an empty token. -/
theorem scanLines_empty_line (data : Bytes) : scanLines (10 :: data) = [] :: scanLines data := by
  simp [scanLines, scanFrom, MaxScanTokenSize, dropCR]

/-- A file is processed through to its end only if every line the scanner
delivers decodes. -/
theorem processLines_ok_decodes (w : World) (token : String) (lines : List Bytes)
    (counter : Nat) (h t : Trace)
    (hok : processLines w token lines counter h = .ok () t) :
    ∀ line ∈ lines, ∃ person, w.unmarshalPerson line = .ok person := by
  induction lines generalizing counter h with
  | nil => simp
  | cons l lines ih =>
    intro line hline
    simp only [processLines] at hok
    cases hd : w.unmarshalPerson l with
    | error err => simp [hd] at hok
    | ok person =>
      simp only [hd] at hok
      cases hp : processIdentifiers w token person person.Identifier
          (h ++ [.log (.counter (counter + 1))]) with
      | fatal t1 => simp [hp] at hok
      | ok v t1 =>
        simp only [hp] at hok
        rcases List.mem_cons.1 hline with rfl | hmem
        · exact ⟨person, hd⟩
        · exact ih (counter + 1) t1 hok line hmem

/-- C9, as stated, fails: the file holds an empty line and then the line of
Doe.  The scanner delivers both, the empty one is decoded, `json.Unmarshal`
rejects it, and the run ends at line 1: the line of Doe is never reached. -/
theorem empty_line_is_fatal :
    scanLines ([10] ++ doeLine ++ [10]) = [[], doeLine] ∧
    processFile (exampleWorld ([10] ++ doeLine ++ [10]) (.response 200 (utf8 "\x7b\"num-found\":1\x7d")))
      "a.json" "tok" [] =
      .fatal [.openFile "a.json", .log (.counter 1),
        .log (.error "unexpected end of JSON input")] :=
  ⟨by rfl, by rfl⟩

/-- C9, amended: `processFile` decodes every line the scanner delivers, the
empty ones too.  With a decoder that, like `json.Unmarshal`, rejects the
empty input: the run ends fatally at the first empty line it reaches, with
the counter and the error in the log; a file with an empty line never goes
through; and a file goes through only if every one of its lines decodes. -/
theorem empty_line_ends_run (w : World) (token fileName : String) (h : Trace) (data : Bytes)
    (err : String)
    (hopen : w.osOpen fileName = .ok data)
    (hempty : w.unmarshalPerson [] = .error err) :
    (∀ earlier later h2, scanLines data = earlier ++ [] :: later →
      processLines w token earlier 0 (h ++ [.openFile fileName]) = .ok () h2 →
      processFile w fileName token h =
        .fatal (h2 ++ [.log (.counter (earlier.length + 1)), .log (.error err)])) ∧
    ([] ∈ scanLines data → (processFile w fileName token h).isFatal = true) ∧
    (∀ t, processFile w fileName token h = .ok () t →
      ∀ line ∈ scanLines data, ∃ person, w.unmarshalPerson line = .ok person) := by
  have hthrough : ∀ t, processFile w fileName token h = .ok () t →
      ∀ line ∈ scanLines data, ∃ person, w.unmarshalPerson line = .ok person := by
    intro t ht
    simp only [processFile, hopen] at ht
    exact processLines_ok_decodes w token (scanLines data) 0 _ t ht
  refine ⟨?_, ?_, hthrough⟩
  · intro earlier later h2 hscan hlines
    simp only [processFile, hopen, hscan]
    rw [processLines_append, hlines]
    simp [processLines, hempty]
  · intro hin
    cases hp : processFile w fileName token h with
    | fatal t => rfl
    | ok v t =>
      obtain ⟨person, hperson⟩ := hthrough t hp [] hin
      rw [hempty] at hperson
      cases hperson

/-- The line of Doe followed by an empty line: Doe is looked up, then the
run ends at line 2. -/
theorem empty_line_ends_run_witness :
    processFile (exampleWorld (doeLine ++ [10, 10]) (.response 200 (utf8 "\x7b\"num-found\":0\x7d")))
      "a.json" "tok" [] =
      .fatal ([.openFile "a.json", .log (.counter 1),
        .search doeRequest (.response 200 (utf8 "\x7b\"num-found\":0\x7d")), .sleep 1000000] ++
        [.log (.counter (1 + 1)), .log (.error "unexpected end of JSON input")]) :=
  (empty_line_ends_run
    (exampleWorld (doeLine ++ [10, 10]) (.response 200 (utf8 "\x7b\"num-found\":0\x7d")))
    "tok" "a.json" [] (doeLine ++ [10, 10]) "unexpected end of JSON input"
    (by rfl) (by rfl)).1 [doeLine] [] _ (by rfl) (by rfl)

/-! ## The order of the lookups -/

theorem lookupEvents_append (a b : Trace) :
    lookupEvents (a ++ b) = lookupEvents a ++ lookupEvents b := by
  simp [lookupEvents]

theorem searches_lookupEvents (t : Trace) : searches (lookupEvents t) = searches t := by
  induction t with
  | nil => rfl
  | cons e t ih =>
    cases e <;>
      simp_all [lookupEvents, searches, List.filter_cons, Event.isSearch, Event.isSleep,
        Event.isStdout]

theorem mem_drop_of_le {α : Type} (l : List α) (n k : Nat) (e : α) (hnk : n ≤ k)
    (he : e ∈ l.drop k) : e ∈ l.drop n := by
  have hk : l.drop k = (l.drop n).drop (k - n) := by
    rw [List.drop_drop]
    congr 1
    omega
  rw [hk] at he
  exact List.mem_of_mem_drop he

theorem mem_drop_append {α : Type} (l m : List α) (n : Nat) (e : α)
    (he : e ∈ l.drop n) : e ∈ (l ++ m).drop n := by
  rw [List.drop_append_eq_append_drop]
  exact List.mem_append_left _ he

/-- The trace of the line loop extends the trace it starts from. -/
theorem processLines_extends (w : World) (token : String) (lines : List Bytes)
    (counter : Nat) (h : Trace) :
    ∃ es, (processLines w token lines counter h).trace = h ++ es := by
  induction lines generalizing counter h with
  | nil => exact ⟨[], by simp [processLines, Outcome.trace]⟩
  | cons line lines ih =>
    simp only [processLines]
    cases hd : w.unmarshalPerson line with
    | error err =>
      exact ⟨[.log (.counter (counter + 1)), .log (.error err)], by simp [Outcome.trace]⟩
    | ok person =>
      simp only
      obtain ⟨es1, hes1⟩ := processIdentifiers_extends w token person person.Identifier
        (h ++ [.log (.counter (counter + 1))])
      cases hp : processIdentifiers w token person person.Identifier
          (h ++ [.log (.counter (counter + 1))]) with
      | fatal t =>
        rw [hp] at hes1
        exact ⟨_, by simp only [Outcome.trace] at hes1 ⊢; rw [hes1, List.append_assoc]⟩
      | ok v t =>
        rw [hp] at hes1
        have ht : t = h ++ [.log (.counter (counter + 1))] ++ es1 := hes1
        obtain ⟨es2, hes2⟩ := ih (counter + 1) t
        exact ⟨[.log (.counter (counter + 1))] ++ es1 ++ es2, by
          rw [hes2, ht]
          simp only [List.append_assoc]⟩

/-- The trace of the file loop extends the trace it starts from. -/
theorem processFiles_extends (w : World) (token : String) (files : List String) (h : Trace) :
    ∃ es, (processFiles w token files h).trace = h ++ es := by
  induction files generalizing h with
  | nil => exact ⟨[], by simp [processFiles, Outcome.trace]⟩
  | cons f files ih =>
    have hfile : ∃ es, (processFile w f token h).trace = h ++ es := by
      simp only [processFile]
      cases ho : w.osOpen f with
      | error err =>
        exact ⟨[.openFile f, .log (.error err)], by simp [Outcome.trace]⟩
      | ok data =>
        obtain ⟨es, hes⟩ := processLines_extends w token (scanLines data) 0
          (h ++ [.openFile f])
        exact ⟨[.openFile f] ++ es, by simp only [hes, List.append_assoc]⟩
    obtain ⟨es1, hes1⟩ := hfile
    simp only [processFiles]
    cases hp : processFile w f token h with
    | fatal t =>
      rw [hp] at hes1
      exact ⟨es1, hes1⟩
    | ok v t =>
      rw [hp] at hes1
      have ht : t = h ++ es1 := hes1
      obtain ⟨es2, hes2⟩ := ih t
      exact ⟨es1 ++ es2, by rw [hes2, ht, List.append_assoc]⟩

/-- The events of answered lookups are lookup events, and their requests
are, one to one and in order, the search requests for the values. -/
theorem answered_blocks (w : World) (token : String) (l : List (Person × IdentifierEntry))
    (blocks : List (List Event)) (hb : List.Forall₂ (AnsweredLookup w token) l blocks) :
    lookupEvents blocks.flatten = blocks.flatten ∧
    List.Forall₂ (fun pi r => RequestFor w token pi.2.Value r) l (searches blocks.flatten) := by
  induction hb with
  | nil => exact ⟨rfl, List.Forall₂.nil⟩
  | @cons pi es _ _ hhead _ ih =>
    obtain ⟨parsed, bodyBytes, response, hurl, _, hes⟩ := hhead
    obtain ⟨ih1, ih2⟩ := ih
    constructor
    · rw [List.flatten_cons, lookupEvents_append, ih1, hes]
      by_cases hn : response.NumFound > 0 <;>
        simp [hn, lookupEvents, Event.isSearch, Event.isSleep, Event.isStdout]
    · rw [List.flatten_cons, searches_append, hes]
      have hs : searches ([Event.search (searchRequest parsed token)
          (.response 200 bodyBytes), .sleep (1 * Millisecond)] ++
          if response.NumFound > 0 then
            [Event.stdout (personMessage pi.1), .stdout (bodyMessage bodyBytes)]
          else []) = [searchRequest parsed token] := by
        by_cases hn : response.NumFound > 0 <;> simp [hn, searches]
      rw [hs]
      exact List.Forall₂.cons ⟨parsed, hurl, rfl⟩ ih2

/-- A lookup whose request is built is either answered with status 200 and
a body that decodes, or ends the run with a request that is not answered. -/
theorem lookup_progress (w : World) (token : String) (person : Person)
    (identifier : IdentifierEntry) (h : Trace) (request : Request)
    (hreq : buildRequest w identifier.Value token = .ok request) :
    (∃ bodyBytes response, w.httpDo h request = .response 200 bodyBytes ∧
      w.unmarshalResponse bodyBytes = .ok response) ∨
    (∃ logged, lookup w token person identifier h =
        .fatal (h ++ .search request (w.httpDo h request) :: logged) ∧
      (Event.search request (w.httpDo h request)).isAnswered w = false) := by
  cases hd : w.httpDo h request with
  | doError err =>
    exact Or.inr ⟨[.log (.error err)], by simp [lookup, hreq, hd], rfl⟩
  | readError status err =>
    exact Or.inr ⟨[.log (.error err)], by simp [lookup, hreq, hd], rfl⟩
  | response status bodyBytes =>
    by_cases hs : status = 200
    · cases hu : w.unmarshalResponse bodyBytes with
      | error err =>
        exact Or.inr ⟨[.log (.error err)], by simp [lookup, hreq, hd, hs, hu],
          by simp [Event.isAnswered, hu]⟩
      | ok response =>
        rw [hs]
        exact Or.inl ⟨bodyBytes, response, rfl, hu⟩
    · exact Or.inr ⟨[.log (.text "Bad HTTP status from API."),
        .log (.statusBody status bodyBytes)], by simp [lookup, hreq, hd, hs],
        by simp [Event.isAnswered, hs]⟩

/-- The identifier loop when every request is built and every request it
sends is answered. -/
theorem processIdentifiers_answered (w : World) (token : String) (person : Person)
    (ids : List IdentifierEntry) (h : Trace)
    (hurl : ∀ i ∈ ids, i.Scheme = "scopus" →
      ∃ parsed, w.newRequestURL "GET" (searchURL ++ i.Value) = .ok parsed)
    (hans : ∀ e ∈ (processIdentifiers w token person ids h).trace.drop h.length,
      e.isAnswered w = true) :
    ∃ blocks, processIdentifiers w token person ids h = .ok () (h ++ blocks.flatten) ∧
      List.Forall₂ (AnsweredLookup w token)
        ((ids.filter (fun i => i.Scheme = "scopus")).map (fun i => (person, i))) blocks := by
  induction ids generalizing h with
  | nil => exact ⟨[], by simp [processIdentifiers], by simp⟩
  | cons i ids ih =>
    have hurl' : ∀ j ∈ ids, j.Scheme = "scopus" →
        ∃ parsed, w.newRequestURL "GET" (searchURL ++ j.Value) = .ok parsed :=
      fun j hj => hurl j (List.mem_cons_of_mem _ hj)
    by_cases hs : i.Scheme = "scopus"
    · obtain ⟨parsed, hparsed⟩ := hurl i (List.mem_cons_self _ _) hs
      have hreq := buildRequest_accepted w i.Value token parsed hparsed
      rcases lookup_progress w token person i h _ hreq with
        ⟨bodyBytes, response, hd, hu⟩ | ⟨logged, hfatal, hbad⟩
      · have hl := lookup_answered w token person i h _ bodyBytes response hreq hd hu
        generalize hes : ([Event.search (searchRequest parsed token)
          (.response 200 bodyBytes), .sleep (1 * Millisecond)] ++
          if response.NumFound > 0 then
            [Event.stdout (personMessage person), .stdout (bodyMessage bodyBytes)]
          else []) = es at hl
        have hstep : processIdentifiers w token person (i :: ids) h =
            processIdentifiers w token person ids (h ++ es) := by
          simp only [processIdentifiers, hs, if_true, hl]
        rw [hstep] at hans
        obtain ⟨blocks, hrun, hrel⟩ := ih (h ++ es) hurl'
          (fun e he => hans e (mem_drop_of_le _ _ _ e (by simp) he))
        refine ⟨es :: blocks, ?_, ?_⟩
        · rw [hstep, hrun, List.flatten_cons, List.append_assoc]
        · simp only [List.filter_cons, hs, decide_True, if_true, List.map_cons]
          exact List.Forall₂.cons ⟨parsed, bodyBytes, response, hparsed, hu, hes.symm⟩ hrel
      · have hstep : processIdentifiers w token person (i :: ids) h =
            .fatal (h ++ .search (searchRequest parsed token)
              (w.httpDo h (searchRequest parsed token)) :: logged) := by
          simp only [processIdentifiers, hs, if_true, hfatal]
        rw [hstep] at hans
        have := hans (.search (searchRequest parsed token)
          (w.httpDo h (searchRequest parsed token))) (by simp [Outcome.trace])
        rw [hbad] at this
        cases this
    · have hstep : processIdentifiers w token person (i :: ids) h =
          processIdentifiers w token person ids h := by
        simp only [processIdentifiers, hs, if_false]
      rw [hstep] at hans
      obtain ⟨blocks, hrun, hrel⟩ := ih h hurl' hans
      refine ⟨blocks, ?_, ?_⟩
      · rw [hstep, hrun]
      · simpa [List.filter_cons, hs] using hrel

/-- The line loop when every line decodes, every request is built and every
request it sends is answered. -/
theorem processLines_answered (w : World) (token : String) (lines : List Bytes)
    (counter : Nat) (h : Trace)
    (hdec : ∀ line ∈ lines, ∃ person, w.unmarshalPerson line = .ok person)
    (hurl : ∀ pi ∈ lines.flatMap (lineLookups w),
      ∃ parsed, w.newRequestURL "GET" (searchURL ++ pi.2.Value) = .ok parsed)
    (hans : ∀ e ∈ (processLines w token lines counter h).trace.drop h.length,
      e.isAnswered w = true) :
    ∃ t blocks, processLines w token lines counter h = .ok () t ∧
      List.Forall₂ (AnsweredLookup w token) (lines.flatMap (lineLookups w)) blocks ∧
      lookupEvents t = lookupEvents h ++ blocks.flatten ∧
      h.length ≤ t.length := by
  induction lines generalizing counter h with
  | nil => exact ⟨h, [], by simp [processLines], by simp, by simp, le_refl _⟩
  | cons line lines ih =>
    obtain ⟨person, hperson⟩ := hdec line (List.mem_cons_self _ _)
    have hline : lineLookups w line =
        (person.Identifier.filter (fun i => i.Scheme = "scopus")).map (fun i => (person, i)) := by
      simp [lineLookups, hperson]
    have hurl1 : ∀ i ∈ person.Identifier, i.Scheme = "scopus" →
        ∃ parsed, w.newRequestURL "GET" (searchURL ++ i.Value) = .ok parsed := by
      intro i hi hs
      apply hurl (person, i)
      rw [List.flatMap_cons, hline]
      apply List.mem_append_left
      exact List.mem_map.2 ⟨i, List.mem_filter.2 ⟨hi, by simpa using hs⟩, rfl⟩
    have hurl2 : ∀ pi ∈ lines.flatMap (lineLookups w),
        ∃ parsed, w.newRequestURL "GET" (searchURL ++ pi.2.Value) = .ok parsed :=
      fun pi hpi => hurl pi (by
        rw [List.flatMap_cons]
        exact List.mem_append_right _ hpi)
    cases hp : processIdentifiers w token person person.Identifier
        (h ++ [.log (.counter (counter + 1))]) with
    | fatal t1 =>
      have hstep : processLines w token (line :: lines) counter h = .fatal t1 := by
        simp only [processLines, hperson, hp]
      rw [hstep] at hans
      obtain ⟨blocks1, hrun1, _⟩ := processIdentifiers_answered w token person
        person.Identifier (h ++ [.log (.counter (counter + 1))]) hurl1 (by
          intro e he
          rw [hp] at he
          exact hans e (mem_drop_of_le _ _ _ e (by simp) he))
      rw [hp] at hrun1
      cases hrun1
    | ok v t1 =>
      have hstep : processLines w token (line :: lines) counter h =
          processLines w token lines (counter + 1) t1 := by
        simp only [processLines, hperson, hp]
      rw [hstep] at hans
      obtain ⟨es2, hes2⟩ := processLines_extends w token lines (counter + 1) t1
      obtain ⟨blocks1, hrun1, hrel1⟩ := processIdentifiers_answered w token person
        person.Identifier (h ++ [.log (.counter (counter + 1))]) hurl1 (by
          intro e he
          rw [hp] at he
          apply hans e
          rw [hes2]
          exact mem_drop_append _ _ _ e (mem_drop_of_le _ _ _ e (by simp) he))
      rw [hp] at hrun1
      have ht1 : t1 = h ++ [.log (.counter (counter + 1))] ++ blocks1.flatten := by
        injection hrun1
      have hlen : h.length ≤ t1.length := by
        rw [ht1]
        simp only [List.length_append]
        omega
      obtain ⟨t, blocks2, hrun2, hrel2, hev2, hlen2⟩ := ih (counter + 1) t1
        (fun l hl => hdec l (List.mem_cons_of_mem _ hl)) hurl2
        (fun e he => hans e (mem_drop_of_le _ _ _ e hlen he))
      refine ⟨t, blocks1 ++ blocks2, ?_, ?_, ?_, le_trans hlen hlen2⟩
      · rw [hstep, hrun2]
      · rw [List.flatMap_cons, hline]
        exact List.rel_append hrel1 hrel2
      · rw [hev2, ht1, lookupEvents_append, lookupEvents_append,
          (answered_blocks w token _ blocks1 hrel1).1, List.flatten_append]
        simp [lookupEvents, Event.isSearch, Event.isSleep, Event.isStdout]

/-- C10, as stated, fails: the only line decodes, every request would be
answered with status 200 and a body that decodes, and the line has the
scopus value `1#%zz`; `http.NewRequest` rejects the URL, the run ends, and
no request at all is sent. -/
theorem unbuildable_request_is_not_queried :
    scanLines zedLine = [zedLine] ∧
    (exampleWorld zedLine (.response 200 (utf8 "\x7b\"num-found\":0\x7d"))).unmarshalPerson zedLine
      = .ok zed ∧
    (∀ t r, (exampleWorld zedLine (.response 200 (utf8 "\x7b\"num-found\":0\x7d"))).httpDo t r
        = .response 200 (utf8 "\x7b\"num-found\":0\x7d") ∧
      (exampleWorld zedLine (.response 200 (utf8 "\x7b\"num-found\":0\x7d"))).unmarshalResponse
        (utf8 "\x7b\"num-found\":0\x7d") = .ok { NumFound := 0 }) ∧
    (expectedLookups (exampleWorld zedLine (.response 200 (utf8 "\x7b\"num-found\":0\x7d")))
      ["a.json"]).map (fun pi => pi.2.Value) = ["1#%zz"] ∧
    main (exampleWorld zedLine (.response 200 (utf8 "\x7b\"num-found\":0\x7d"))) =
      .fatal [.postForm tokenURL
          [("client_id", "id"), ("client_secret", "secret"),
            ("grant_type", "client_credentials"), ("scope", "/read-public")]
          (.response 200 (utf8 "\x7b\"access_token\":\"tok\"\x7d")),
        .openFile "a.json", .log (.counter 1),
        .log (.error "parse: invalid URL escape \"%zz\"")] ∧
    searches (main (exampleWorld zedLine (.response 200 (utf8 "\x7b\"num-found\":0\x7d")))).trace
      = [] :=
  ⟨by rfl, by rfl, fun _ _ => ⟨by rfl, by rfl⟩, by rfl, by rfl, by rfl⟩

/-- C10, amended: when every file of the list opens, every line the scanner
delivers decodes, `http.NewRequest` accepts the search URL of every scopus
value, and every search request the run sends is answered with status 200
and a body that decodes, the run goes through the whole list; the requests
it sends are, one to one and in order, the search requests for the values of
the scopus identifiers, file by file, line by line, identifier by identifier
(repeated values included); and its lookup events are, in that order, one
answered lookup for each such identifier: the request, the sleep, and the
report of the person exactly when `num-found` is positive. -/
theorem lookups_in_order (w : World) (token : String) (files : List String) (h : Trace)
    (hopen : ∀ f ∈ files, ∃ data, w.osOpen f = .ok data)
    (hdec : ∀ f ∈ files, ∀ data, w.osOpen f = .ok data →
      ∀ line ∈ scanLines data, ∃ person, w.unmarshalPerson line = .ok person)
    (hurl : ∀ pi ∈ expectedLookups w files,
      ∃ parsed, w.newRequestURL "GET" (searchURL ++ pi.2.Value) = .ok parsed)
    (hans : ∀ e ∈ (processFiles w token files h).trace.drop h.length,
      e.isAnswered w = true) :
    ∃ t blocks requests, processFiles w token files h = .ok () t ∧
      searches t = searches h ++ requests ∧
      List.Forall₂ (fun pi r => RequestFor w token pi.2.Value r)
        (expectedLookups w files) requests ∧
      List.Forall₂ (AnsweredLookup w token) (expectedLookups w files) blocks ∧
      lookupEvents t = lookupEvents h ++ blocks.flatten := by
  have main_part : ∃ t blocks, processFiles w token files h = .ok () t ∧
      List.Forall₂ (AnsweredLookup w token) (expectedLookups w files) blocks ∧
      lookupEvents t = lookupEvents h ++ blocks.flatten := by
    induction files generalizing h with
    | nil => exact ⟨h, [], by simp [processFiles], by simp [expectedLookups], by simp⟩
    | cons f files ih =>
      obtain ⟨data, hdata⟩ := hopen f (List.mem_cons_self _ _)
      have hfile : fileLookups w f = (scanLines data).flatMap (lineLookups w) := by
        simp [fileLookups, hdata]
      have hpf : processFile w f token h =
          processLines w token (scanLines data) 0 (h ++ [.openFile f]) := by
        simp only [processFile, hdata]
      have hurl1 : ∀ pi ∈ (scanLines data).flatMap (lineLookups w),
          ∃ parsed, w.newRequestURL "GET" (searchURL ++ pi.2.Value) = .ok parsed :=
        fun pi hpi => hurl pi (by
          rw [expectedLookups, List.flatMap_cons, hfile]
          exact List.mem_append_left _ hpi)
      cases hp : processLines w token (scanLines data) 0 (h ++ [.openFile f]) with
      | fatal t1 =>
        have hstep : processFiles w token (f :: files) h = .fatal t1 := by
          simp only [processFiles, hpf, hp]
        rw [hstep] at hans
        obtain ⟨t, _, hrun1, _⟩ := processLines_answered w token (scanLines data) 0
          (h ++ [.openFile f]) (hdec f (List.mem_cons_self _ _) data hdata) hurl1 (by
            intro e he
            rw [hp] at he
            exact hans e (mem_drop_of_le _ _ _ e (by simp) he))
        rw [hp] at hrun1
        cases hrun1
      | ok v t1 =>
        have hstep : processFiles w token (f :: files) h = processFiles w token files t1 := by
          simp only [processFiles, hpf, hp]
        rw [hstep] at hans
        obtain ⟨es2, hes2⟩ := processFiles_extends w token files t1
        obtain ⟨t1', blocks1, hrun1, hrel1, hev1, hlen1⟩ := processLines_answered w token
          (scanLines data) 0 (h ++ [.openFile f])
          (hdec f (List.mem_cons_self _ _) data hdata) hurl1 (by
            intro e he
            rw [hp] at he
            apply hans e
            rw [hes2]
            exact mem_drop_append _ _ _ e (mem_drop_of_le _ _ _ e (by simp) he))
        rw [hp] at hrun1
        have ht1 : t1 = t1' := by injection hrun1
        subst ht1
        have hlen : h.length ≤ t1.length := by
          have := hlen1
          simp only [List.length_append, List.length_singleton] at this
          omega
        obtain ⟨t, blocks2, hrun2, hrel2, hev2⟩ := ih t1
          (fun g hg => hopen g (List.mem_cons_of_mem _ hg))
          (fun g hg => hdec g (List.mem_cons_of_mem _ hg))
          (fun pi hpi => hurl pi (by
            rw [expectedLookups, List.flatMap_cons]
            exact List.mem_append_right _ hpi))
          (fun e he => hans e (mem_drop_of_le _ _ _ e hlen he))
        refine ⟨t, blocks1 ++ blocks2, ?_, ?_, ?_⟩
        · rw [hstep, hrun2]
        · rw [expectedLookups, List.flatMap_cons, hfile]
          exact List.rel_append hrel1 hrel2
        · rw [hev2, hev1, lookupEvents_append, List.flatten_append]
          simp [lookupEvents, Event.isSearch, Event.isSleep, Event.isStdout]
  obtain ⟨t, blocks, hrun, hrel, hev⟩ := main_part
  refine ⟨t, blocks, searches blocks.flatten, hrun, ?_,
    (answered_blocks w token _ blocks hrel).2, hrel, hev⟩
  rw [← searches_lookupEvents t, hev, searches_append, searches_lookupEvents]

/-- Doe twice, with a line without scopus identifier in between, and a
server that would answer a third request with status 429: the two requests
the run sends are answered, the request for the value `123` is sent twice,
and each lookup is answered. -/
theorem lookups_in_order_witness :
    (∃ t blocks requests,
      processFiles
        (throttledWorld (doeLine ++ [10] ++ roeLine ++ [10] ++ doeLine)
          (.response 200 (utf8 "\x7b\"num-found\":1\x7d"))) "tok" ["a.json"] [] = .ok () t ∧
      searches t = searches [] ++ requests ∧
      List.Forall₂
        (fun pi r => RequestFor
          (throttledWorld (doeLine ++ [10] ++ roeLine ++ [10] ++ doeLine)
            (.response 200 (utf8 "\x7b\"num-found\":1\x7d"))) "tok" pi.2.Value r)
        (expectedLookups
          (throttledWorld (doeLine ++ [10] ++ roeLine ++ [10] ++ doeLine)
            (.response 200 (utf8 "\x7b\"num-found\":1\x7d")))
          ["a.json"]) requests ∧
      List.Forall₂
        (AnsweredLookup
          (throttledWorld (doeLine ++ [10] ++ roeLine ++ [10] ++ doeLine)
            (.response 200 (utf8 "\x7b\"num-found\":1\x7d"))) "tok")
        (expectedLookups
          (throttledWorld (doeLine ++ [10] ++ roeLine ++ [10] ++ doeLine)
            (.response 200 (utf8 "\x7b\"num-found\":1\x7d")))
          ["a.json"]) blocks ∧
      lookupEvents t = lookupEvents [] ++ blocks.flatten) ∧
    searches (processFiles
        (throttledWorld (doeLine ++ [10] ++ roeLine ++ [10] ++ doeLine)
          (.response 200 (utf8 "\x7b\"num-found\":1\x7d"))) "tok" ["a.json"] []).trace =
      [doeRequest, doeRequest] :=
  ⟨lookups_in_order
      (throttledWorld (doeLine ++ [10] ++ roeLine ++ [10] ++ doeLine)
        (.response 200 (utf8 "\x7b\"num-found\":1\x7d"))) "tok" ["a.json"] []
      (by
        intro f hf
        rw [List.mem_singleton.1 hf]
        exact ⟨_, rfl⟩)
      (by
        intro f hf data hdata line hline
        rw [List.mem_singleton.1 hf] at hdata
        have hd : doeLine ++ [10] ++ roeLine ++ [10] ++ doeLine = data :=
          Except.ok.inj hdata
        have hs : scanLines (doeLine ++ [10] ++ roeLine ++ [10] ++ doeLine) =
            [doeLine, roeLine, doeLine] := by rfl
        rw [← hd, hs] at hline
        simp only [List.mem_cons, List.mem_singleton, List.not_mem_nil, or_false] at hline
        rcases hline with rfl | rfl | rfl
        · exact ⟨doe, by rfl⟩
        · exact ⟨roe, by rfl⟩
        · exact ⟨doe, by rfl⟩)
      (by
        intro pi hpi
        have he : expectedLookups
            (throttledWorld (doeLine ++ [10] ++ roeLine ++ [10] ++ doeLine)
              (.response 200 (utf8 "\x7b\"num-found\":1\x7d"))) ["a.json"] =
            [(doe, { Scheme := "scopus", Value := "123" }),
              (doe, { Scheme := "scopus", Value := "123" })] := by rfl
        rw [he] at hpi
        simp only [List.mem_cons, List.mem_singleton, List.not_mem_nil, or_false] at hpi
        rcases hpi with rfl | rfl <;> exact ⟨exampleURL "123", by rfl⟩)
      (by decide),
    by rfl⟩

end Scopus2Orcid
